import Mathlib

/-!
Shallow embedding of the paste.run Go client (`client.go`) and proofs of the
spec claims about it. Byte streams are modelled as lists of naturals, strings
as Lean strings, header maps as partial functions from canonical header names
to values, and the upload producer goroutine as a pure function from the
payload source to the multipart parts it writes plus the terminal state of the
pipe (clean end-of-stream or an error).
-/

namespace PasteRun

/-! ### String helpers translated from Go's strings / net/textproto packages -/

/-- Go `unicode.IsSpace` restricted to the Latin-1 range, which is what the
trimmed response bodies in this client can contain in practice: ASCII
whitespace plus NEL and NBSP. -/
def isGoSpace (c : Char) : Bool :=
  c = ' ' || c = '\t' || c = '\n' || c = Char.ofNat 11 || c = Char.ofNat 12 ||
  c = '\r' || c = Char.ofNat 0x85 || c = Char.ofNat 0xA0

/-- Go `strings.TrimSpace`: drop leading and trailing whitespace. -/
def trimSpace (s : String) : String :=
  String.mk (((s.data.dropWhile isGoSpace).reverse.dropWhile isGoSpace).reverse)

/-- Go `strings.Index s needle != -1`, i.e. substring containment. -/
def containsSub (needle : List Char) : List Char → Bool
  | [] => needle.isEmpty
  | c :: rest => needle.isPrefixOf (c :: rest) || containsSub needle rest

/-- Go `strings.ContainsAny s chars`. -/
def containsAnyOf (s : List Char) (cs : List Char) : Bool :=
  s.any (fun c => cs.contains c)

/-- Go `strings.TrimSuffix`. -/
def trimSuffixStr (s suf : String) : String :=
  if suf.data.isSuffixOf s.data then
    String.mk (s.data.take (s.data.length - suf.data.length))
  else s

/-! ### Request configuration and functional options (client.go lines 18-108) -/

/-- The `request` struct. The Go `context.Context` and `*http.Client` values
are never inspected by this code, only stored and handed to the transport, so
they are modelled as numeric handles. -/
structure Request where
  author : String := ""
  title : String := ""
  desc : String := ""
  typ : String := ""
  tok : String := ""
  ctx : Option Nat := none
  client : Option Nat := none
  baseURL : String := ""
  headers : List String := []
  query : String := ""
deriving Repr, DecidableEq

/-- The concrete `Option` closures the package exports, as a deep embedding:
each constructor records the argument of the corresponding Go option
constructor. -/
inductive Opt where
  | author (s : String)
  | title (s : String)
  | description (s : String)
  | type (s : String)
  | token (s : String)
  | context (n : Nat)
  | client (n : Nat)
  | baseURL (s : String)
  | headers (hs : List String)
  | query (s : String)
deriving Repr, DecidableEq

/-- The body of each option closure: what it writes into the request. -/
def applyOpt (r : Request) : Opt → Request
  | .author s => { r with author := s }
  | .title s => { r with title := s }
  | .description s => { r with desc := s }
  | .type s => { r with typ := s }
  | .token s => { r with tok := s }
  | .context n => { r with ctx := some n }
  | .client n => { r with client := some n }
  | .baseURL s => { r with baseURL := s }
  | .headers hs => { r with headers := hs }
  | .query s => { r with query := s }

/-- The `for _, opt := range options { opt(req) }` loop at the head of
`upload`, `get` and `getLanguages`. -/
def applyOpts (r : Request) (opts : List Opt) : Request :=
  opts.foldl applyOpt r

/-- Go `Headers(headers ...string)`: panics (modelled as `none`) when the
pair list has odd length, before any option value exists at all. -/
def HeadersOpt (hs : List String) : Option Opt :=
  if hs.length % 2 ≠ 0 then none else some (Opt.headers hs)

def defaultBaseURL : String := "https://api.paste.run/"

/-- `url := req.baseURL; if url == "" { url = defaultBaseURL }`. -/
def resolveBase (req : Request) : String :=
  if req.baseURL = "" then defaultBaseURL else req.baseURL

/-! ### Header maps (net/http `Header.Set`, net/textproto canonical keys) -/

/-- `validHeaderFieldByte` from net/textproto: RFC 7230 token characters. -/
def validHeaderFieldChar (c : Char) : Bool :=
  let n := c.toNat
  (48 ≤ n && n ≤ 57) || (65 ≤ n && n ≤ 90) || (97 ≤ n && n ≤ 122) ||
  n == 33 || n == 35 || n == 36 || n == 37 || n == 38 || n == 39 ||
  n == 42 || n == 43 || n == 45 || n == 46 || n == 94 || n == 95 ||
  n == 96 || n == 124 || n == 126

/-- The per-character loop of `textproto.CanonicalMIMEHeaderKey`: uppercase a
letter right after the start or a hyphen, lowercase the rest. -/
def canonChars : Bool → List Char → List Char
  | _, [] => []
  | up, c :: rest =>
    let c2 := if up then c.toUpper else c.toLower
    c2 :: canonChars (c2 = '-') rest

/-- `textproto.CanonicalMIMEHeaderKey`: returns the key unchanged when it
holds a non-token character, otherwise canonicalizes case. -/
def canonicalKey (s : String) : String :=
  if s.data.all validHeaderFieldChar then String.mk (canonChars true s.data)
  else s

/-- A header map as a partial function from header names to values; `Set`
stores under the canonical key, later writes shadow earlier ones. -/
def HMap := String → Option String

def emptyH : HMap := fun _ => none

/-- `hr.Header.Set(k, v)`. -/
def hset (h : HMap) (k v : String) : HMap :=
  fun k2 => if k2 = canonicalKey k then some v else h k2

/-- The extra-headers loop `for i := 0; i+1 < len(req.headers); i += 2`
shared by `upload`, `get` and `getLanguages`. -/
def setPairs (h : HMap) : List String → HMap
  | k :: v :: rest => setPairs (hset h k v) rest
  | _ => h

/-! ### The streaming multipart producer (client.go lines 115-155) -/

/-- A payload source (`io.Reader`): the successive chunks `io.Copy` reads
from it, followed either by clean end-of-stream (`failAt = none`) or by a
read error (`failAt = some e`) after the chunks. -/
structure Source where
  chunks : List (List Nat)
  failAt : Option String := none
deriving Repr, DecidableEq

/-- One part of the multipart body, at the granularity the producer writes:
a text form field, or the file part with its field name, placeholder
filename and raw content bytes. -/
inductive Part where
  | field (name value : String)
  | filePart (fieldname filename : String) (content : List Nat)
deriving Repr, DecidableEq

def partName : Part → String
  | .field n _ => n
  | .filePart n _ _ => n

/-- The four `WriteField` calls guarded by non-emptiness, in source order. -/
def textParts (req : Request) : List Part :=
  (if req.author ≠ "" then [Part.field "author" req.author] else []) ++
  (if req.title ≠ "" then [Part.field "title" req.title] else []) ++
  (if req.desc ≠ "" then [Part.field "desc" req.desc] else []) ++
  (if req.typ ≠ "" then [Part.field "type" req.typ] else [])

/-- The producer goroutine's output: the parts it writes to the pipe and the
terminal state it closes the pipe with. `encErr` models a failure of
`w.CreateFormFile` (in which case no file part is written and the pipe is
closed with that error); otherwise the file part carries the payload bytes
copied verbatim in order and the pipe is closed with the copy error when the
source failed, or cleanly (`none`, end-of-stream) via the deferred
`w.Close(); bodyw.CloseWithError(err)` when everything succeeded. -/
def produce (req : Request) (src : Source) (encErr : Option String) :
    List Part × Option String :=
  match encErr with
  | some e => (textParts req, some e)
  | none => (textParts req ++ [Part.filePart "file" "-" src.chunks.flatten],
             src.failAt)

/-- The error state the pipe is closed with, as the consumer observes it:
`none` is clean end-of-stream. -/
def pipeTerminal (src : Source) (encErr : Option String) : Option String :=
  (produce {} src encErr).2

/-! ### The upload consumer (client.go lines 157-198) -/

/-- An HTTP response as this client consumes it: status code, header list,
body text, and the transport's declared content length. -/
structure Response where
  status : Nat
  headers : List (String × String) := []
  body : String := ""
  contentLength : Int := 0
deriving Repr, DecidableEq

/-- The response classification at the tail of `upload` (lines 194-197):
201 yields the trimmed body as the paste URL, anything else yields the
trimmed body as the error message. -/
def uploadRespond (resp : Response) : Except String String :=
  if resp.status ≠ 201 then Except.error (trimSpace resp.body)
  else Except.ok (trimSpace resp.body)

/-- The request headers `upload` sends: extra header pairs first, then the
multipart content type, then the bearer token if present (lines 166-178). -/
def uploadHeaders (req : Request) (contentType : String) : HMap :=
  let h := setPairs emptyH req.headers
  let h2 := hset h "Content-Type" contentType
  if req.tok ≠ "" then hset h2 "Authorization" ("Bearer " ++ req.tok) else h2

/-- `client.Do(hr)` for the upload: the transport first drains the request
body from the pipe; when the pipe terminates in an error state the send
fails with that error (instead of seeing end-of-stream), otherwise the
transport outcome `doRes` (a response, or a transport error) decides. -/
def doUpload (src : Source) (encErr : Option String)
    (doRes : Except String Response) : Except String Response :=
  match pipeTerminal src encErr with
  | some e => Except.error e
  | none => doRes

/-- What an `upload` call leaves behind: its return value, and whether the
reader side of the pipe was closed when it returned. -/
structure UploadOutcome where
  result : Except String String
  sentParts : List Part
  readerClosed : Bool
deriving Repr

/-- `defer bodyr.Close()` (line 116): whatever route the body of `upload`
returns by, the reader side of the pipe is closed on exit. -/
def withDeferredClose (body : Except String String) (parts : List Part) :
    UploadOutcome :=
  { result := body, sentParts := parts, readerClosed := true }

/-- The `upload` function: resolve options, run producer and consumer joined
by the pipe, classify the response; the deferred close of the pipe reader
wraps every return path. `sentParts` records the multipart body the producer
wrote into the pipe for the transport to read. -/
def uploadRun (src : Source) (base : Request) (opts : List Opt)
    (encErr : Option String) (doRes : Except String Response) :
    UploadOutcome :=
  let req := applyOpts base opts
  withDeferredClose
    (match doUpload src encErr doRes with
     | Except.error e => Except.error e
     | Except.ok resp => uploadRespond resp)
    (produce req src encErr).1

/-! ### Paste retrieval (client.go lines 218-310) -/

/-- The characters forbidden in a paste identifier: `"./#?"`. -/
def badChars : List Char := ['.', '/', '#', '?']

/-- The fixed public-facing prefix `p` in `get`. -/
def wwwBase : String := "https://www.paste.run/"

/-- Reference validation and fetch-URL construction (lines 228-240): a
reference holding `"://"` must carry the public prefix and a clean remainder;
a bare identifier must itself be clean; the fetch URL joins the base (with
any trailing slash trimmed) with the identifier and `"?raw"`. -/
def getURL (baseURL paste : String) : Except String String :=
  if containsSub "://".data paste.data then
    if !(wwwBase.data.isPrefixOf paste.data) ||
        containsAnyOf (paste.data.drop wwwBase.data.length) badChars then
      Except.error "invalid paste URL"
    else
      Except.ok (trimSuffixStr baseURL "/" ++ "/" ++
        String.mk (paste.data.drop wwwBase.data.length) ++ "?raw")
  else
    if containsAnyOf paste.data badChars then
      Except.error "invalid paste URL"
    else
      Except.ok (trimSuffixStr baseURL "/" ++ "/" ++ paste ++ "?raw")

/-- `resp.Header.Get(k)`: first value under the key, `""` when absent. -/
def hdrGet (hs : List (String × String)) (k : String) : String :=
  match hs.find? (fun p => p.1 = k) with
  | some p => p.2
  | none => ""

/-- The `PasteInfo` struct. The live content stream handed to the caller is
modelled by the body text; timestamps are abstract instants (`Nat`), with
`0` the Go zero `time.Time`, i.e. the "never expires" sentinel. -/
structure PasteInfo where
  content : String
  size : Int
  typ : String
  language : String
  classifier : String
  author : String
  title : String
  created : Nat
  expires : Nat
deriving Repr, DecidableEq

/-- The headers `get` sends (lines 247-257): the extra header pairs, then
the bearer token if present. -/
def getHeaders (req : Request) : HMap :=
  let h := setPairs emptyH req.headers
  if req.tok ≠ "" then hset h "Authorization" ("Bearer " ++ req.tok) else h

/-- The `get` function. `transport` stands for `client.Do` applied to the
constructed GET request (its URL and headers); `parse` stands for Go's
`time.Parse(http.TimeFormat, -)` with its error position: `none` when the
header value does not parse (including the empty string Go's `Header.Get`
returns for an absent header); the discarded error makes the field the zero
time. -/
def getRun (paste : String) (base : Request) (opts : List Opt)
    (transport : String → HMap → Except String Response)
    (parse : String → Option Nat) : Except String PasteInfo :=
  let req := applyOpts base opts
  match getURL (resolveBase req) paste with
  | Except.error e => Except.error e
  | Except.ok u =>
    match transport u (getHeaders req) with
    | Except.error e => Except.error e
    | Except.ok resp =>
      if resp.status ≠ 200 then Except.error (trimSpace resp.body)
      else
        Except.ok
          { content := resp.body
            size := resp.contentLength
            typ := hdrGet resp.headers "Content-Type"
            language := hdrGet resp.headers "Paste-Language"
            classifier := hdrGet resp.headers "Paste-Class"
            author := hdrGet resp.headers "Created-By"
            title := hdrGet resp.headers "Paste-Title"
            created := (parse (hdrGet resp.headers "Created-At")).getD 0
            expires := (parse (hdrGet resp.headers "Expires")).getD 0 }

/-! ### Language catalog (client.go lines 312-385) -/

/-- `filepath.Base` for slash-separated paths: empty path is `"."`, trailing
slashes are dropped, everything before the last remaining slash is dropped,
and an all-slash path is `"/"`. -/
def filepathBase (p : String) : String :=
  if p = "" then "."
  else
    let q := (p.data.reverse.dropWhile (fun c => c = '/')).reverse
    let r := q.foldl (fun acc c => if c = '/' then [] else acc ++ [c]) []
    if r.isEmpty then "/" else String.mk r

/-- `UploadFile`: open the file (the filesystem is a map from paths to
payload sources); an open failure is returned as-is and no upload happens;
otherwise upload with the base request pre-filled with the file's base name
as title, the caller's options applied on top. -/
def uploadFileRun (fs : String → Option Source) (path : String)
    (opts : List Opt) (encErr : Option String)
    (doRes : Except String Response) : Except String UploadOutcome :=
  match fs path with
  | none => Except.error ("open " ++ path ++ ": no such file or directory")
  | some src =>
    Except.ok (uploadRun src { title := filepathBase path } opts encErr doRes)

/-! ### Helper definitions and lemmas for the claims -/

/-- The value an option writes into a given scalar field, when it is an
option for that field. -/
def valAuthor : Opt → Option String
  | .author s => some s
  | _ => none

def valTitle : Opt → Option String
  | .title s => some s
  | _ => none

def valDesc : Opt → Option String
  | .description s => some s
  | _ => none

def valType : Opt → Option String
  | .type s => some s
  | _ => none

def valToken : Opt → Option String
  | .token s => some s
  | _ => none

def valContext : Opt → Option (Option Nat)
  | .context n => some (some n)
  | _ => none

def valClient : Opt → Option (Option Nat)
  | .client n => some (some n)
  | _ => none

def valBaseURL : Opt → Option String
  | .baseURL s => some s
  | _ => none

def valQuery : Opt → Option String
  | .query s => some s
  | _ => none

/-- The value written by the last option in the list that sets the field
extracted by `f`, if any. -/
def lastSet {α : Type} (f : Opt → Option α) : List Opt → Option α
  | [] => none
  | o :: rest =>
    match lastSet f rest with
    | some v => some v
    | none => f o

/-- Folding the options over a request resolves each field to the last
value written to it, falling back to the base request's value. -/
theorem lastSet_resolve {α : Type} (f : Opt → Option α) (g : Request → α)
    (hc : ∀ r o, g (applyOpt r o) = ((f o).getD (g r))) :
    ∀ (base : Request) (opts : List Opt),
      g (applyOpts base opts) = (lastSet f opts).getD (g base)
  | _, [] => rfl
  | base, o :: rest => by
    have ih := lastSet_resolve f g hc (applyOpt base o) rest
    show g (applyOpts (applyOpt base o) rest) = _
    rw [ih, hc]
    cases hl : lastSet f rest with
    | some v => simp [lastSet, hl]
    | none => simp [lastSet, hl]

/-- The claim-side description of the text fields: the fixed
author/title/desc/type order, keeping only the non-empty ones. -/
def specFieldList (req : Request) : List (String × String) :=
  [("author", req.author), ("title", req.title),
   ("desc", req.desc), ("type", req.typ)].filter (fun p => p.2 ≠ "")

theorem textParts_eq_spec (req : Request) :
    textParts req = (specFieldList req).map (fun p => Part.field p.1 p.2) := by
  unfold textParts specFieldList
  by_cases h1 : req.author = "" <;> by_cases h2 : req.title = "" <;>
    by_cases h3 : req.desc = "" <;> by_cases h4 : req.typ = "" <;>
    simp [h1, h2, h3, h4]

/-! ### Claim theorems -/

/-- C2: for every resolved upload config, the multipart body is exactly the
text fields in the fixed order author, title, desc, type — each present iff
non-empty — followed by exactly one file part named "file" with placeholder
filename "-" holding the payload bytes verbatim in order; and the part-name
order is a sublist of the fixed sequence, so it does not depend on the order
the options were supplied in, only on the resolved config. -/
theorem multipart_body_fixed_order (base : Request) (opts : List Opt)
    (src : Source) :
    produce (applyOpts base opts) src none =
      ((specFieldList (applyOpts base opts)).map (fun p => Part.field p.1 p.2)
        ++ [Part.filePart "file" "-" src.chunks.flatten], src.failAt) ∧
    List.Sublist
      ((produce (applyOpts base opts) src none).1.map partName)
      ["author", "title", "desc", "type", "file"] := by
  constructor
  · show (textParts (applyOpts base opts) ++ _, _) = _
    rw [textParts_eq_spec]
  · show ((textParts (applyOpts base opts) ++ _).map partName).Sublist _
    rw [textParts_eq_spec, List.map_append, List.map_map]
    have h1 : ((specFieldList (applyOpts base opts)).map
        (partName ∘ fun p => Part.field p.1 p.2)).Sublist
        (["author", "title", "desc", "type"]) := by
      have hs : (specFieldList (applyOpts base opts)).Sublist
          [("author", (applyOpts base opts).author),
           ("title", (applyOpts base opts).title),
           ("desc", (applyOpts base opts).desc),
           ("type", (applyOpts base opts).typ)] := List.filter_sublist _
      simpa using hs.map (fun p => p.1)
    have h2 : ([Part.filePart "file" "-" src.chunks.flatten].map
        partName).Sublist ["file"] := by simp [partName]
    simpa using List.Sublist.append h1 h2

/-- C3: an executed upload request succeeds iff the response status is
exactly 201, in which case the trimmed body is the paste URL; for any other
status the error message is exactly the trimmed body; and never both. -/
theorem upload_response_classification (resp : Response) :
    ((∃ u, uploadRespond resp = Except.ok u) ↔ resp.status = 201) ∧
    (resp.status = 201 →
      uploadRespond resp = Except.ok (trimSpace resp.body)) ∧
    (resp.status ≠ 201 →
      uploadRespond resp = Except.error (trimSpace resp.body)) ∧
    (∀ u e, ¬(uploadRespond resp = Except.ok u ∧
              uploadRespond resp = Except.error e)) := by
  unfold uploadRespond
  by_cases h : resp.status = 201 <;> simp [h]

/-- C3 witness: a non-201 response whose body is `"rate limited"` with
surrounding whitespace yields an error whose message is exactly
`"rate limited"`. -/
theorem upload_response_classification_witness :
    uploadRespond { status := 400, body := "\n rate limited " } =
      Except.error "rate limited" := by
  have h := upload_response_classification
    { status := 400, body := "\n rate limited " }
  exact (h.2.2.1 (by decide)).trans rfl

/-- C8: option resolution applies the options in order and resolves every
scalar field (author, title, description, type, token, context, client,
base URL, query) to the value of the last option setting it, or the base
config's value when none does; resolution is a pure fold over the list. -/
theorem options_last_write_wins (base : Request) (opts : List Opt) :
    (applyOpts base opts).author =
        (lastSet valAuthor opts).getD base.author ∧
    (applyOpts base opts).title = (lastSet valTitle opts).getD base.title ∧
    (applyOpts base opts).desc = (lastSet valDesc opts).getD base.desc ∧
    (applyOpts base opts).typ = (lastSet valType opts).getD base.typ ∧
    (applyOpts base opts).tok = (lastSet valToken opts).getD base.tok ∧
    (applyOpts base opts).ctx = (lastSet valContext opts).getD base.ctx ∧
    (applyOpts base opts).client =
        (lastSet valClient opts).getD base.client ∧
    (applyOpts base opts).baseURL =
        (lastSet valBaseURL opts).getD base.baseURL ∧
    (applyOpts base opts).query = (lastSet valQuery opts).getD base.query := by
  refine ⟨?_, ?_, ?_, ?_, ?_, ?_, ?_, ?_, ?_⟩
  · exact lastSet_resolve valAuthor (fun r => r.author)
      (by intro r o; cases o <;> rfl) base opts
  · exact lastSet_resolve valTitle (fun r => r.title)
      (by intro r o; cases o <;> rfl) base opts
  · exact lastSet_resolve valDesc (fun r => r.desc)
      (by intro r o; cases o <;> rfl) base opts
  · exact lastSet_resolve valType (fun r => r.typ)
      (by intro r o; cases o <;> rfl) base opts
  · exact lastSet_resolve valToken (fun r => r.tok)
      (by intro r o; cases o <;> rfl) base opts
  · exact lastSet_resolve valContext (fun r => r.ctx)
      (by intro r o; cases o <;> rfl) base opts
  · exact lastSet_resolve valClient (fun r => r.client)
      (by intro r o; cases o <;> rfl) base opts
  · exact lastSet_resolve valBaseURL (fun r => r.baseURL)
      (by intro r o; cases o <;> rfl) base opts
  · exact lastSet_resolve valQuery (fun r => r.query)
      (by intro r o; cases o <;> rfl) base opts

/-- C1: when the payload source or the encoder fails, the producer closes
the pipe in that error state, the consumer's send observes the error rather
than clean end-of-stream, and the upload call returns an error equal to that
failure whatever the transport outcome would have been; and on every return
route of the upload call the reader side of the pipe is closed, so the
producer is never left blocked on a write. -/
theorem upload_pipe_error_and_reader_close (base : Request)
    (opts : List Opt) (src : Source) (encErr : Option String)
    (doRes : Except String Response) (e : String) :
    (pipeTerminal src encErr = some e →
      pipeTerminal src encErr ≠ none ∧
      (uploadRun src base opts encErr doRes).result = Except.error e) ∧
    (uploadRun src base opts encErr doRes).readerClosed = true := by
  constructor
  · intro h
    refine ⟨by simp [h], ?_⟩
    simp [uploadRun, withDeferredClose, doUpload, h]
  · rfl

/-- C1 witness: a payload source that fails after one chunk makes the
upload return exactly that error even though the transport would have
answered 201, the pipe terminates in the error state rather than
end-of-stream, and the pipe reader is closed on return. -/
theorem upload_pipe_error_and_reader_close_witness :
    pipeTerminal { chunks := [[104, 105]], failAt := some "read failure" }
        none = some "read failure" ∧
    (uploadRun { chunks := [[104, 105]], failAt := some "read failure" }
        {} [] none
        (Except.ok { status := 201, body := "https://www.paste.run/x" })).result
      = Except.error "read failure" ∧
    (uploadRun { chunks := [[104, 105]], failAt := some "read failure" }
        {} [] none
        (Except.ok { status := 201,
                     body := "https://www.paste.run/x" })).readerClosed
      = true := by
  have h := upload_pipe_error_and_reader_close {} []
    { chunks := [[104, 105]], failAt := some "read failure" } none
    (Except.ok { status := 201, body := "https://www.paste.run/x" })
    "read failure"
  exact ⟨rfl, (h.1 rfl).2, h.2⟩

/-- The claim-side reading of reference validation in `get`: the extracted
identifier, when the reference is valid. A reference holding the scheme
separator must start with the public host prefix and its remainder must be
free of `.`, `/`, `#`, `?`; a bare identifier must itself be free of them. -/
def refIDSpec (paste : String) : Option String :=
  if containsSub "://".data paste.data then
    if wwwBase.data.isPrefixOf paste.data &&
        !containsAnyOf (paste.data.drop wwwBase.data.length) badChars then
      some (String.mk (paste.data.drop wwwBase.data.length))
    else none
  else
    if containsAnyOf paste.data badChars then none else some paste

/-- C4: `get`'s reference validation and fetch-URL construction agree with
the claim: an invalid reference yields the invalid-reference error before
any network call, and a valid one fetches the trimmed base joined with the
identifier and `?raw`; in particular `abc123` and
`https://www.paste.run/abc123` both fetch `{base}/abc123?raw` while
`https://evil.example/abc123`, `abc/123` and `abc?x` are rejected. -/
theorem get_reference_validation (base paste : String) :
    (getURL base paste =
      match refIDSpec paste with
      | none => Except.error "invalid paste URL"
      | some id =>
        Except.ok (trimSuffixStr base "/" ++ "/" ++ id ++ "?raw")) ∧
    getURL defaultBaseURL "abc123" =
      Except.ok "https://api.paste.run/abc123?raw" ∧
    getURL defaultBaseURL "https://www.paste.run/abc123" =
      Except.ok "https://api.paste.run/abc123?raw" ∧
    getURL defaultBaseURL "https://evil.example/abc123" =
      Except.error "invalid paste URL" ∧
    getURL defaultBaseURL "abc/123" = Except.error "invalid paste URL" ∧
    getURL defaultBaseURL "abc?x" = Except.error "invalid paste URL" := by
  refine ⟨?_, rfl, rfl, rfl, rfl, rfl⟩
  unfold getURL refIDSpec
  by_cases hsep : containsSub "://".data paste.data
  · by_cases hpre : wwwBase.data.isPrefixOf paste.data
    · simp only [hsep, hpre, if_true]
      split_ifs <;> simp_all
    · simp [hsep, hpre]
  · by_cases hbad : containsAnyOf paste.data badChars <;>
      simp [hsep, hbad]

/-- C5: a header list with an odd number of elements is rejected when the
`Headers` option is built, before any request machinery runs, so no request
ever carries a non-pair-aligned header list; an even list is accepted
unchanged and the dispatcher consumes it two elements at a time as
(name, value) pairs. -/
theorem headers_even_invariant (hs : List String) :
    (hs.length % 2 = 1 → HeadersOpt hs = none) ∧
    (hs.length % 2 = 0 → HeadersOpt hs = some (Opt.headers hs)) ∧
    (∀ o, HeadersOpt hs = some o →
      ∃ l, o = Opt.headers l ∧ l.length % 2 = 0) ∧
    (∀ (h : HMap) (k v : String) (rest : List String),
      setPairs h (k :: v :: rest) = setPairs (hset h k v) rest) := by
  refine ⟨fun h1 => ?_, fun h0 => ?_, fun o ho => ?_, fun _ _ _ _ => rfl⟩
  · simp [HeadersOpt, h1]
  · simp [HeadersOpt, h0]
  · unfold HeadersOpt at ho
    by_cases h0 : hs.length % 2 = 0
    · simp [h0] at ho
      exact ⟨hs, ho.symm, h0⟩
    · simp [h0] at ho

/-- C5 witness: the concrete odd list `["K"]` is rejected and the concrete
even list `["K", "V"]` is accepted. -/
theorem headers_even_invariant_witness :
    HeadersOpt ["K"] = none ∧
    HeadersOpt ["K", "V"] = some (Opt.headers ["K", "V"]) := by
  exact ⟨(headers_even_invariant ["K"]).1 (by decide),
         (headers_even_invariant ["K", "V"]).2.1 (by decide)⟩

/-- C9: the upload request's Content-Type header always equals the
multipart writer's computed content type, even when the caller supplied a
Content-Type pair in extra headers, because the content type is set after
the extra headers; and with a non-empty token the Authorization header is
always `Bearer` plus the token, overriding any caller-supplied
Authorization pair, because the token is set after the extra headers. -/
theorem upload_header_precedence (req : Request) (ct : String) :
    uploadHeaders req ct "Content-Type" = some ct ∧
    (req.tok ≠ "" →
      uploadHeaders req ct "Authorization" =
        some ("Bearer " ++ req.tok)) := by
  have e1 : canonicalKey "Content-Type" = "Content-Type" := by decide
  have e2 : canonicalKey "Authorization" = "Authorization" := by decide
  unfold uploadHeaders
  by_cases ht : req.tok = ""
  · simp [ht, hset, e1]
  · simp [ht, hset, e1, e2]

/-- C9 witness: with extra headers supplying both Content-Type and
Authorization and a configured token, the sent headers carry the multipart
content type and the bearer token. -/
theorem upload_header_precedence_witness :
    uploadHeaders
        { tok := "tk",
          headers := ["Content-Type", "text/plain",
                      "Authorization", "Basic x"] }
        "multipart/form-data; boundary=b" "Content-Type" =
      some "multipart/form-data; boundary=b" ∧
    uploadHeaders
        { tok := "tk",
          headers := ["Content-Type", "text/plain",
                      "Authorization", "Basic x"] }
        "multipart/form-data; boundary=b" "Authorization" =
      some "Bearer tk" := by
  have h := upload_header_precedence
    { tok := "tk",
      headers := ["Content-Type", "text/plain", "Authorization", "Basic x"] }
    "multipart/form-data; boundary=b"
  exact ⟨h.1, h.2 (by decide)⟩

/-- C6: on a 200 response, `get` succeeds and its Created and Expires
fields are, independently of one another, the parsed `Created-At` and
`Expires` headers with any parse failure — including the empty string an
absent header reads as — degrading to the zero time, never failing the
call. -/
theorem get_timestamp_sentinel (paste : String) (base : Request)
    (opts : List Opt) (transport : String → HMap → Except String Response)
    (parse : String → Option Nat) (resp : Response) (u : String)
    (hurl : getURL (resolveBase (applyOpts base opts)) paste = Except.ok u)
    (htr : transport u (getHeaders (applyOpts base opts)) = Except.ok resp)
    (hst : resp.status = 200) :
    ∃ info, getRun paste base opts transport parse = Except.ok info ∧
      info.created = (parse (hdrGet resp.headers "Created-At")).getD 0 ∧
      info.expires = (parse (hdrGet resp.headers "Expires")).getD 0 ∧
      (parse (hdrGet resp.headers "Created-At") = none →
        info.created = 0) ∧
      (parse (hdrGet resp.headers "Expires") = none → info.expires = 0) := by
  have hrun : getRun paste base opts transport parse =
      Except.ok
        { content := resp.body
          size := resp.contentLength
          typ := hdrGet resp.headers "Content-Type"
          language := hdrGet resp.headers "Paste-Language"
          classifier := hdrGet resp.headers "Paste-Class"
          author := hdrGet resp.headers "Created-By"
          title := hdrGet resp.headers "Paste-Title"
          created := (parse (hdrGet resp.headers "Created-At")).getD 0
          expires := (parse (hdrGet resp.headers "Expires")).getD 0 } := by
    simp [getRun, hurl, htr, hst]
  exact ⟨_, hrun, rfl, rfl, fun h => by simp [h], fun h => by simp [h]⟩

/-- C6 witness: a 200 response carrying neither timestamp header, fetched
with a parse function that rejects the empty string, yields a successful
call with both time fields at the zero sentinel. -/
theorem get_timestamp_sentinel_witness :
    ∃ info,
      getRun "abc" {} []
          (fun _ _ => Except.ok
            { status := 200, headers := [("Paste-Title", "t")],
              body := "hello", contentLength := 5 })
          (fun _ => none) = Except.ok info ∧
      info.created = 0 ∧ info.expires = 0 := by
  obtain ⟨info, h1, _, _, h4, h5⟩ := get_timestamp_sentinel "abc" {} []
    (fun _ _ => Except.ok
      { status := 200, headers := [("Paste-Title", "t")],
        body := "hello", contentLength := 5 })
    (fun _ => none)
    { status := 200, headers := [("Paste-Title", "t")],
      body := "hello", contentLength := 5 }
    "https://api.paste.run/abc?raw" rfl rfl rfl
  exact ⟨info, h1, h4 rfl, h5 rfl⟩

/-- C10: when opening the file fails, UploadFile returns the open error
and no upload runs; otherwise it uploads with the base request pre-filled
with the path's base name as title, and because the caller's options are
applied on top of that pre-fill, the resolved title is the last
Title-option value when one is given and the file's base name when none
is. -/
theorem uploadFile_open_and_title (fs : String → Option Source)
    (path : String) (opts : List Opt) (encErr : Option String)
    (doRes : Except String Response) :
    (fs path = none →
      uploadFileRun fs path opts encErr doRes =
        Except.error ("open " ++ path ++ ": no such file or directory")) ∧
    (∀ src, fs path = some src →
      uploadFileRun fs path opts encErr doRes =
        Except.ok (uploadRun src { title := filepathBase path } opts
          encErr doRes) ∧
      (applyOpts { title := filepathBase path } opts).title =
        (lastSet valTitle opts).getD (filepathBase path)) := by
  constructor
  · intro h
    simp [uploadFileRun, h]
  · intro src h
    refine ⟨by simp [uploadFileRun, h], ?_⟩
    exact lastSet_resolve valTitle (fun r => r.title)
      (by intro r o; cases o <;> rfl) { title := filepathBase path } opts

/-- C10 witness: a missing path yields the open error; with the file
present, an explicit Title option overrides the filename default, and with
no Title option the title is the path's base name. -/
theorem uploadFile_open_and_title_witness :
    uploadFileRun (fun _ => none) "/tmp/a.txt" [] none
        (Except.ok { status := 201, body := "u" }) =
      Except.error "open /tmp/a.txt: no such file or directory" ∧
    (applyOpts { title := filepathBase "/tmp/a.txt" }
        [Opt.title "T"]).title = "T" ∧
    (applyOpts { title := filepathBase "/tmp/a.txt" }
        ([] : List Opt)).title = "a.txt" := by
  have h1 := (uploadFile_open_and_title (fun _ => none) "/tmp/a.txt" []
    none (Except.ok { status := 201, body := "u" })).1 rfl
  have h2 := ((uploadFile_open_and_title
    (fun _ => some { chunks := [[104]] }) "/tmp/a.txt" [Opt.title "T"]
    none (Except.ok { status := 201, body := "u" })).2
    { chunks := [[104]] } rfl).2
  have h3 := ((uploadFile_open_and_title
    (fun _ => some { chunks := [[104]] }) "/tmp/a.txt" []
    none (Except.ok { status := 201, body := "u" })).2
    { chunks := [[104]] } rfl).2
  exact ⟨h1.trans rfl, h2.trans rfl, h3.trans rfl⟩

end PasteRun
